import Mathlib

/-!
The mtr-stream program: report pipeline, broker list parsing and start-up.

A shallow embedding of `mtr-stream.go`.

* Go strings are Lean `String`s (valid UTF-8 text), Go `int` is `Int`.
* `float64` is kept abstract: the type parameter `F` stands for it, and the
  rendering of a float by the verb `%.1f` is supplied by the library record.
* Pointers that may be nil (`*ReportLocation`, `*Host`) are `Option`s.
* Everything the handler writes is recorded, in order, in the `out` trace of
  a `World`; the package-level variable `countryCode` lives there too.
* A nil-pointer dereference stops the handler with `Stop.nilDeref`.
-/

set_option maxRecDepth 100000

namespace MtrStream

/-! ## Data model (mtr-stream.go, lines 16-49) -/

/-- Go `type Host struct`. -/
structure Host (F : Type) where
  IP : String
  Name : String
  Hop : Int
  Sent : Int
  LostPercent : F
  Last : F
  Avg : F
  Best : F
  Worst : F
  StDev : F
deriving DecidableEq, Repr

/-- Go `type ReportLocation struct`. -/
structure ReportLocation (F : Type) where
  IP : String
  CountryCode : String
  CountryName : String
  City : String
  Latitude : F
  Longitude : F
deriving DecidableEq, Repr

/-- Go `type Report struct`. `Time` (a `time.Time`) and `ElapsedTime`
(a `time.Duration`) are kept as integer nanosecond counts; `Hosts` is a slice
of pointers and `Location` is a pointer, so their entries may be nil. -/
structure Report (F : Type) where
  Time : Int
  Hosts : List (Option (Host F))
  Hops : Int
  ElapsedTime : Int
  Location : Option (ReportLocation F)
deriving DecidableEq, Repr

/-- The zero value that `var report Report` declares. -/
def Report.zero (F : Type) : Report F :=
  { Time := 0, Hosts := [], Hops := 0, ElapsedTime := 0, Location := none }

/-! ## Observable effects -/

/-- One effect of the handler on the outside world, in program order. -/
inductive Event where
  | logError (msg : String)
  | logWarn (msg : String)
  | stdout (text : String)
  | stderr (text : String)
deriving DecidableEq, Repr

/-- How an invocation of the handler stops. -/
inductive Stop where
  | returned
  | nilDeref
deriving DecidableEq, Repr

/-- Process state the handler can see: the package-level `countryCode`
variable and everything written so far. -/
structure World where
  countryCode : String
  out : List Event
deriving DecidableEq, Repr

/-- Append one effect to the trace. -/
def World.emit (w : World) (e : Event) : World :=
  { w with out := w.out ++ [e] }

/-- The imported library functions the handler calls.
`unmarshal p r` is `json.Unmarshal(p, &r)`: the value of `r` after the call
and whether an error was returned. `color` is `ansi.Color`. `fmtFloat1 x` is
the text the verb `%.1f` produces for `x`. -/
structure Lib (F : Type) where
  unmarshal : String → Report F → Report F × Bool
  color : String → String → String
  fmtFloat1 : F → String

/-! ## Formatting (package fmt) -/

/-- Left-justified padding of the `-` flag: spaces are added on the right until
the text has `width` characters. -/
def padRight (width : Nat) (s : String) : String :=
  s ++ String.mk (List.replicate (width - s.length) ' ')

/-- Go `fmt.Println(s)`: the text and a newline, in one write to standard output. -/
def fmtPrintln (s : String) (w : World) : World :=
  w.emit (Event.stdout (s ++ "\n"))

/-- The builtin `println()` with no argument: a newline on standard error. -/
def builtinPrintln (w : World) : World :=
  w.emit (Event.stderr "\n")

/-- Go `log.Error(msg)`. -/
def logError (msg : String) (w : World) : World :=
  w.emit (Event.logError msg)

/-- Go `log.Warn(msg)`. -/
def logWarn (msg : String) (w : World) : World :=
  w.emit (Event.logWarn msg)

/-- The text of line 70. -/
def separatorLine : String := "------------------------"

/-- The text produced by the `Printf` of lines 71-72. -/
def columnHeader : String :=
  padRight 4 "Hop" ++ " " ++ padRight 18 "IP" ++ " " ++ padRight 6 "Sent" ++ " " ++
  padRight 8 "Loss %" ++ " " ++ padRight 8 "Last" ++ " " ++ padRight 8 "Avg" ++ " " ++
  padRight 8 "Best" ++ " " ++ padRight 8 "Worst" ++ " " ++ padRight 8 "StdDev" ++ "\n"

/-- The text produced by the `Printf` of lines 74-75 for one host. -/
def formatRow {F : Type} (lib : Lib F) (host : Host F) : String :=
  padRight 4 (toString host.Hop) ++ " " ++ padRight 18 host.IP ++ " " ++
  padRight 6 (toString host.Sent) ++ " " ++
  padRight 8 (lib.fmtFloat1 host.LostPercent) ++ " " ++
  padRight 8 (lib.fmtFloat1 host.Last) ++ " " ++
  padRight 8 (lib.fmtFloat1 host.Avg) ++ " " ++
  padRight 8 (lib.fmtFloat1 host.Best) ++ " " ++
  padRight 8 (lib.fmtFloat1 host.Worst) ++ " " ++
  padRight 8 (lib.fmtFloat1 host.StDev) ++ "\n"

/-! ## printReport (lines 51-78) -/

/-- The loop of lines 73-76: one `Printf` per entry, in slice order; reading a
field through a nil `*Host` stops the handler. -/
def printRows {F : Type} (lib : Lib F) : List (Option (Host F)) → World → World × Stop
  | [], w => (w, Stop.returned)
  | none :: _, w => (w, Stop.nilDeref)
  | some host :: rest, w => printRows lib rest (w.emit (Event.stdout (formatRow lib host)))

/-- Lines 69-77: the table of an accepted report. `loc` is the location
`report.Location` points to. -/
def renderTable {F : Type} (lib : Lib F) (report : Report F) (loc : ReportLocation F)
    (w : World) : World × Stop :=
  let w := fmtPrintln (lib.color loc.CountryName "white+b" ++ " - " ++ loc.IP) w
  let w := fmtPrintln separatorLine w
  let w := w.emit (Event.stdout columnHeader)
  match printRows lib report.Hosts w with
  | (w, Stop.returned) => (builtinPrintln w, Stop.returned)
  | (w, Stop.nilDeref) => (w, Stop.nilDeref)

/-- Go `func printReport(client, msg)`; `payload` is `msg.Payload()`. After a
decoding error is logged the function goes on (there is no `return` in the
block of lines 54-56); `report.Location.CountryCode` dereferences the
pointer. -/
def printReport {F : Type} (lib : Lib F) (payload : String) (w : World) : World × Stop :=
  let decoded := lib.unmarshal payload (Report.zero F)
  let report := decoded.1
  let w := if decoded.2 then logError "Error decoding json report" w else w
  match report.Location with
  | none => (w, Stop.nilDeref)
  | some loc =>
    let cc := loc.CountryCode
    if cc = "" then
      (logWarn "Discarding report with no country code" w, Stop.returned)
    else if w.countryCode ≠ "" ∧ cc ≠ w.countryCode then
      (w, Stop.returned)
    else
      renderTable lib report loc w

/-- The filter rule in the words of the specification: an empty country code
gives a warning and no table; otherwise a non-empty filter that is not equal
to the country code gives nothing at all; otherwise the report is rendered. -/
def filterReference {F : Type} (lib : Lib F) (report : Report F) (loc : ReportLocation F)
    (w : World) : World × Stop :=
  if loc.CountryCode = "" then
    (w.emit (Event.logWarn "Discarding report with no country code"), Stop.returned)
  else if ¬ (w.countryCode = "") ∧ ¬ (w.countryCode = loc.CountryCode) then
    (w, Stop.returned)
  else
    renderTable lib report loc w

/-- The header line of a table. -/
def headerLine {F : Type} (lib : Lib F) (loc : ReportLocation F) : String :=
  lib.color loc.CountryName "white+b" ++ " - " ++ loc.IP ++ "\n"

/-- The block of a report as the specification words it: the header line
with the plain country name, the column header row, the host rows and an empty
line, all on standard output. -/
def claimedBlock {F : Type} (loc : ReportLocation F) (rows : List String) : List String :=
  [loc.CountryName ++ " - " ++ loc.IP ++ "\n", columnHeader] ++ rows ++ ["\n"]

/-- The chunks written to standard output, in order. -/
def stdoutWrites : List Event → List String
  | [] => []
  | Event.stdout t :: es => t :: stdoutWrites es
  | _ :: es => stdoutWrites es

/-! ## Sample payloads and the library results on them -/

/-- The end-to-end example payload of the specification. -/
def payloadExample : String :=
  "\x7b\"location\":\x7b\"country_code\":\"US\",\"country_name\":\"United States\",\"ip\":\"1.2.3.4\"\x7d,\"hosts\":[\x7b\"ip\":\"10.0.0.1\",\"hop-number\":1,\"sent\":5,\"lost-percent\":0.0,\"last\":1.2,\"avg\":1.1,\"best\":0.9,\"worst\":1.5,\"standard-dev\":0.2\x7d]\x7d"

/-- A payload that is not JSON at all. -/
def payloadNotJson : String := "not json"

/-- The empty object: valid JSON with no `location` member. -/
def payloadEmptyObject : String := "\x7b\x7d"

/-- The payload with an empty location object. -/
def payloadEmptyLocation : String := "\x7b\"location\":\x7b\x7d\x7d"

/-- A payload with a usable location and a null entry in the hosts list. -/
def payloadNullHost : String :=
  "\x7b\"location\":\x7b\"country_code\":\"US\",\"country_name\":\"United States\",\"ip\":\"1.2.3.4\"\x7d,\"hosts\":[null]\x7d"

/-- A payload whose `hops` member has the wrong type: `json.Unmarshal` fills in
the other members and returns an `UnmarshalTypeError`. -/
def payloadBadHops : String :=
  "\x7b\"location\":\x7b\"country_code\":\"US\",\"country_name\":\"United States\",\"ip\":\"1.2.3.4\"\x7d,\"hops\":\"x\"\x7d"

/-- A payload whose location is null. -/
def payloadNullLocation : String := "\x7b\"location\":null\x7d"

/-- A payload with a usable location and four host entries: hop 7, hop 2, a
null, hop 9. -/
def payloadNullAmongHosts : String :=
  "\x7b\"location\":\x7b\"country_code\":\"US\",\"country_name\":\"United States\",\"ip\":\"1.2.3.4\"\x7d,\"hosts\":[\x7b\"ip\":\"10.0.0.7\",\"hop-number\":7,\"sent\":5\x7d,\x7b\"ip\":\"10.0.0.2\",\"hop-number\":2,\"sent\":4\x7d,null,\x7b\"ip\":\"10.0.0.9\",\"hop-number\":9,\"sent\":3\x7d]\x7d"

/-- The location of the sample payloads; floats are counted in tenths. -/
def usLocation : ReportLocation Int :=
  { IP := "1.2.3.4", CountryCode := "US", CountryName := "United States", City := "",
    Latitude := 0, Longitude := 0 }

/-- The host of the example payload; floats are counted in tenths. -/
def exampleHost : Host Int :=
  { IP := "10.0.0.1", Name := "", Hop := 1, Sent := 5, LostPercent := 0, Last := 12,
    Avg := 11, Best := 9, Worst := 15, StDev := 2 }

/-- A host of which the payload gives the address, the hop number and the sent
count only: the other members keep their zero value. -/
def bareHost (ip : String) (hop sent : Int) : Host Int :=
  { IP := ip, Name := "", Hop := hop, Sent := sent, LostPercent := 0, Last := 0,
    Avg := 0, Best := 0, Worst := 0, StDev := 0 }

/-- One decimal place rendering of a number of tenths. -/
def fmtTenths (t : Int) : String :=
  (if t < 0 then "-" else "") ++ toString (t.natAbs / 10) ++ "." ++ toString (t.natAbs % 10)

/-- A table of what `json.Unmarshal` returns on the sample payloads named
above. It stands for `json.Unmarshal` on those payloads and on text that is
not JSON (a syntax error, which leaves the report untouched) only: the last
branch answers every text outside the table as if it were not JSON, so the
table says nothing about other valid payloads. -/
def sampleUnmarshal (payload : String) (r : Report Int) : Report Int × Bool :=
  if payload = payloadExample then
    ({ r with Location := some usLocation, Hosts := [some exampleHost] }, false)
  else if payload = payloadEmptyObject then (r, false)
  else if payload = payloadNullLocation then (r, false)
  else if payload = payloadNullAmongHosts then
    ({ r with Location := some usLocation,
              Hosts := [some (bareHost "10.0.0.7" 7 5), some (bareHost "10.0.0.2" 2 4), none,
                        some (bareHost "10.0.0.9" 9 3)] }, false)
  else if payload = payloadEmptyLocation then
    ({ r with Location := some { IP := "", CountryCode := "", CountryName := "", City := "",
                                 Latitude := 0, Longitude := 0 } }, false)
  else if payload = payloadNullHost then
    ({ r with Location := some usLocation, Hosts := [none] }, false)
  else if payload = payloadBadHops then
    ({ r with Location := some usLocation }, true)
  else (r, true)

/-- The three library functions on the sample values: `ansi.Color s "white+b"`
wraps `s` in the bold-white escape sequence and the reset sequence. -/
def sampleLib : Lib Int :=
  { unmarshal := sampleUnmarshal
    color := fun s _ => "\x1b[1;37m" ++ s ++ "\x1b[0m"
    fmtFloat1 := fmtTenths }

/-! ## parseBrokerUrls (lines 80-87) -/

/-- Go `unicode.IsSpace`: the Latin-1 white space characters and, beyond
Latin-1, the code points with the White_Space property. -/
def isSpace (c : Char) : Bool :=
  let n := c.toNat
  if n ≤ 0xFF then
    n == 0x09 || n == 0x0A || n == 0x0B || n == 0x0C || n == 0x0D || n == 0x20 ||
      n == 0x85 || n == 0xA0
  else
    n == 0x1680 || (0x2000 ≤ n && n ≤ 0x200A) || n == 0x2028 || n == 0x2029 ||
      n == 0x202F || n == 0x205F || n == 0x3000

/-- The pieces of a text between the occurrences of a one-character
separator, in order; a text without separator is its own single piece. -/
def splitChars (sep : Char) : List Char → List (List Char)
  | [] => [[]]
  | c :: cs =>
    if c = sep then [] :: splitChars sep cs
    else
      match splitChars sep cs with
      | [] => [[c]]
      | p :: ps => (c :: p) :: ps

/-- Go `strings.Split(s, sep)` for a separator of one character. -/
def stringsSplit (s : String) (sep : Char) : List String :=
  (splitChars sep s.data).map String.mk

/-- Removal of the leading, then of the trailing white space. -/
def trimSpaceChars (l : List Char) : List Char :=
  ((l.dropWhile isSpace).reverse.dropWhile isSpace).reverse

/-- Go `strings.TrimSpace`. -/
def stringsTrimSpace (s : String) : String :=
  String.mk (trimSpaceChars s.data)

/-- Go `func parseBrokerUrls(brokerUrls string) []string`: every token of the
split is replaced, in place, by its trimmed text. -/
def parseBrokerUrls (brokerUrls : String) : List String :=
  (stringsSplit brokerUrls ',').map stringsTrimSpace

/-! ## main (lines 89-155) -/

/-- The values of the command-line flags after `kingpin.Parse()`. -/
structure Flags where
  brokerUrls : String
  cafile : String
  topic : String
  clientID : String
  insecure : Bool
  debug : Bool
  countryCode : String
deriving DecidableEq, Repr

/-- What the operating system answers during start-up: whether `os.Stat`
fails on a path, and the result of `os.Hostname()` (`none` for an error). -/
structure Os where
  statFails : String → Bool
  hostname : Option String

/-- Go `mqttc.Args`, with the fields `main` sets. -/
structure Args where
  BrokerURLs : List String
  ClientID : String
  Topic : String
  TLSCACertPath : String
  TLSSkipVerify : Bool
deriving DecidableEq, Repr

/-- The message handlers of the program. -/
inductive HandlerFn where
  | printReport
deriving DecidableEq, Repr

/-- One call `mqttc.Subscribe(handler, &args)`. -/
structure SubscribeCall where
  handler : HandlerFn
  args : Args
deriving DecidableEq, Repr

/-- State of `main`: the filter variable, the `Subscribe` calls made so far
(oldest first), the deferred `Disconnect` calls (most recent first, each on
the client returned by the call of that index) and the `Disconnect` calls
that have run. -/
structure MainState where
  countryCode : String
  calls : List SubscribeCall
  deferred : List Nat
  disconnected : List Nat
deriving DecidableEq, Repr

/-- The loop of lines 138-150. -/
def subscribeLoop (clientID topic cafile : String) (insecure : Bool) :
    List String → MainState → MainState
  | [], s => s
  | urlStr :: rest, s =>
    let args : Args :=
      { BrokerURLs := [urlStr], ClientID := clientID, Topic := topic,
        TLSCACertPath := cafile, TLSSkipVerify := insecure }
    let c := s.calls.length
    subscribeLoop clientID topic cafile insecure rest
      { s with calls := s.calls ++ [{ handler := HandlerFn.printReport, args := args }],
               deferred := c :: s.deferred }

/-- How start-up ends: the process exited with a status, or every
subscription has been made and `main` goes on to its last two lines. -/
inductive Startup where
  | exit (code : Nat)
  | ok (s : MainState)
deriving DecidableEq, Repr

/-- Lines 113-150 of `main`. `log.Fatalf` and `log.Fatal` end the process
with status 1. -/
def mainStartup (fl : Flags) (os : Os) : Startup :=
  if fl.cafile ≠ "" ∧ os.statFails fl.cafile = true then
    Startup.exit 1
  else
    let urlList := parseBrokerUrls fl.brokerUrls
    match (if fl.clientID = "" then os.hostname else some fl.clientID) with
    | none => Startup.exit 1
    | some clientID =>
      Startup.ok (subscribeLoop clientID fl.topic fl.cafile fl.insecure urlList
        { countryCode := fl.countryCode, calls := [], deferred := [], disconnected := [] })

/-- A channel that has been made: its capacity, the number of queued values
and the number of goroutines waiting to receive. -/
structure Chan where
  capacity : Nat
  queued : Nat
  receivers : Nat
deriving DecidableEq, Repr

/-- Whether a send can complete: never on a nil channel; on a made channel
when a receiver waits or the buffer has room. -/
def canSend : Option Chan → Bool
  | none => false
  | some ch => decide (0 < ch.receivers) || decide (ch.queued < ch.capacity)

/-- Where the main goroutine is after start-up. -/
inductive Phase where
  | sending
  | unwinding
  | exited (code : Nat)
deriving DecidableEq, Repr

/-- The main goroutine after start-up: its state, the channel variable
`loop` and the phase. -/
structure Proc where
  st : MainState
  loop : Option Chan
  phase : Phase
deriving DecidableEq, Repr

/-- Lines 153-154: `var loop chan bool` declares a nil channel, and the main
goroutine is at the send. -/
def afterStartup (s : MainState) : Proc :=
  { st := s, loop := none, phase := Phase.sending }

/-- One step of the main goroutine; `none` when it cannot move. After the
send, `main` returns: the deferred calls run, last registered first, and the
process exits with status 0. -/
def step (p : Proc) : Option Proc :=
  match p.phase with
  | Phase.sending => if canSend p.loop then some { p with phase := Phase.unwinding } else none
  | Phase.unwinding =>
    match p.st.deferred with
    | [] => some { p with phase := Phase.exited 0 }
    | c :: rest =>
      some { p with st := { p.st with deferred := rest,
                                      disconnected := p.st.disconnected ++ [c] } }
  | Phase.exited _ => none

/-- At most `k` steps of the main goroutine. -/
def run : Nat → Proc → Proc
  | 0, p => p
  | k + 1, p =>
    match step p with
    | none => p
    | some q => run k q

/-! ## Concurrent deliveries -/

/-- The writes one invocation of the handler makes, in order. -/
def handlerWrites {F : Type} (lib : Lib F) (countryCode payload : String) : List Event :=
  (printReport lib payload { countryCode := countryCode, out := [] }).1.out

/-- Handlers running at the same time: what each goroutine has still to
write, and the shared output so far, each write tagged with its goroutine.
The handler takes no lock, so a write of any goroutine may come next. -/
structure Shared where
  pending : List (List Event)
  out : List (Nat × Event)
deriving DecidableEq, Repr

/-- The goroutines are started, one per delivered payload. -/
def Shared.start {F : Type} (lib : Lib F) (countryCode : String) (payloads : List String) :
    Shared :=
  { pending := payloads.map (handlerWrites lib countryCode), out := [] }

/-- Goroutine `i` makes its next write, if it has one. -/
def Shared.stepAt (i : Nat) (s : Shared) : Shared :=
  match s.pending[i]? with
  | some (e :: rest) => { pending := s.pending.set i rest, out := s.out ++ [(i, e)] }
  | _ => s

/-- The scheduler picks the goroutines in the given order. -/
def runSchedule : List Nat → Shared → Shared
  | [], s => s
  | i :: rest, s => runSchedule rest (s.stepAt i)

/-- The standard-output writes of the shared output, with their goroutine. -/
def sharedStdout : List (Nat × Event) → List (Nat × String)
  | [] => []
  | (i, Event.stdout t) :: es => (i, t) :: sharedStdout es
  | _ :: es => sharedStdout es

/-- The writes of goroutine `i` in the shared output, in order. -/
def writesOf (i : Nat) (out : List (Nat × Event)) : List Event :=
  (out.filter (fun x => x.1 == i)).map Prod.snd

/-- Whether a sequence of goroutine tags is made of whole blocks: once another
goroutine has written, the earlier one does not write again. -/
def contiguous : List Nat → Bool
  | [] => true
  | i :: rest => (rest.dropWhile (fun j => j == i)).all (fun j => j != i) && contiguous rest

/-! ## Sample start-up -/

/-- Two broker targets, no client identifier, no CA file, no filter. -/
def sampleFlags : Flags :=
  { brokerUrls := " tcp://a:1883 , ssl://b:8883", cafile := "", topic := "/metrics/mtr",
    clientID := "", insecure := false, debug := false, countryCode := "" }

/-- A host named `probe1` on which every `os.Stat` succeeds. -/
def sampleOs : Os :=
  { statFails := fun _ => false, hostname := some "probe1" }

/-- The `Subscribe` call `main` builds for one target. -/
def callFor (clientID topic cafile : String) (insecure : Bool) (urlStr : String) :
    SubscribeCall :=
  { handler := HandlerFn.printReport,
    args := { BrokerURLs := [urlStr], ClientID := clientID, Topic := topic,
              TLSCACertPath := cafile, TLSSkipVerify := insecure } }

/-- Two deliveries of the example payload on two connections, scheduled so
that the second handler writes its header right after the first one did. -/
def interleavedRun : Shared :=
  runSchedule [0, 1, 0, 0, 0, 0, 1, 1, 1, 1]
    (Shared.start sampleLib "" [payloadExample, payloadExample])

/-! ## Trace descriptions used in the proofs -/

/-- The writes of the row loop: the rows of the entries before the first nil
entry. -/
def rowEvents {F : Type} (lib : Lib F) : List (Option (Host F)) → List Event
  | [] => []
  | none :: _ => []
  | some host :: rest => Event.stdout (formatRow lib host) :: rowEvents lib rest

/-- How the row loop stops. -/
def rowsStop {F : Type} : List (Option (Host F)) → Stop
  | [] => Stop.returned
  | none :: _ => Stop.nilDeref
  | some _ :: rest => rowsStop rest

end MtrStream

namespace MtrStream

/-! ## The handler appends to the trace -/

/-- The row loop appends its rows to the trace and leaves the filter alone. -/
theorem printRows_eq {F : Type} (lib : Lib F) (hs : List (Option (Host F))) (w : World) :
    printRows lib hs w =
      ({ countryCode := w.countryCode, out := w.out ++ rowEvents lib hs }, rowsStop hs) := by
  induction hs generalizing w with
  | nil => simp [printRows, rowEvents, rowsStop]
  | cons h t ih =>
    cases h with
    | none => simp [printRows, rowEvents, rowsStop]
    | some host => simp [printRows, rowEvents, rowsStop, ih, World.emit]

/-- The table block appends to the trace and leaves the filter alone. -/
theorem renderTable_eq {F : Type} (lib : Lib F) (report : Report F) (loc : ReportLocation F)
    (w : World) :
    renderTable lib report loc w =
      ({ countryCode := w.countryCode,
         out := w.out ++ ([Event.stdout (headerLine lib loc),
                           Event.stdout (separatorLine ++ "\n"),
                           Event.stdout columnHeader] ++ rowEvents lib report.Hosts ++
                 (if rowsStop report.Hosts = Stop.returned then [Event.stderr "\n"] else [])) },
       rowsStop report.Hosts) := by
  unfold renderTable
  simp only [printRows_eq]
  cases h : rowsStop report.Hosts <;>
    simp [fmtPrintln, builtinPrintln, World.emit, headerLine, String.append_assoc]

/-- The handler in terms of the decoding result. -/
theorem printReport_of_decode {F : Type} (lib : Lib F) (payload : String) (w : World)
    (report : Report F) (err : Bool)
    (hdec : lib.unmarshal payload (Report.zero F) = (report, err)) :
    printReport lib payload w =
      match report.Location with
      | none => (if err then logError "Error decoding json report" w else w, Stop.nilDeref)
      | some loc =>
        filterReference lib report loc
          (if err then logError "Error decoding json report" w else w) := by
  simp only [printReport, hdec]
  cases report.Location with
  | none => rfl
  | some loc =>
    simp only [filterReference, logWarn, ne_eq]
    generalize (if err = true then logError "Error decoding json report" w else w) = v
    by_cases hcc : loc.CountryCode = ""
    · simp only [hcc, if_true]
    · simp only [hcc, if_false]
      by_cases hf : v.countryCode = ""
      · simp only [hf, not_true_eq_false, false_and, if_false]
      · by_cases hm : loc.CountryCode = v.countryCode
        · rw [if_neg (fun h => h.2 hm), if_neg (fun h => h.2 hm.symm)]
        · rw [if_pos ⟨hf, hm⟩, if_pos ⟨hf, fun h => hm h.symm⟩]

/-- The filter rule appends to the trace and leaves the filter alone. -/
theorem filterReference_eq {F : Type} (lib : Lib F) (report : Report F)
    (loc : ReportLocation F) (w : World) :
    filterReference lib report loc w =
      ({ countryCode := w.countryCode,
         out := w.out ++ (filterReference lib report loc
                  { countryCode := w.countryCode, out := [] }).1.out },
       (filterReference lib report loc { countryCode := w.countryCode, out := [] }).2) := by
  unfold filterReference
  by_cases hcc : loc.CountryCode = "" <;>
    by_cases hf : w.countryCode = "" <;>
    by_cases hm : w.countryCode = loc.CountryCode <;>
    simp [hcc, hf, hm, World.emit, renderTable_eq]

/-- The handler appends its writes to the trace: what it writes and how it
stops depend on the filter and the payload only. -/
theorem printReport_eq {F : Type} (lib : Lib F) (payload : String) (w : World) :
    printReport lib payload w =
      ({ countryCode := w.countryCode, out := w.out ++ handlerWrites lib w.countryCode payload },
       (printReport lib payload { countryCode := w.countryCode, out := [] }).2) := by
  rcases hdec : lib.unmarshal payload (Report.zero F) with ⟨report, err⟩
  unfold handlerWrites
  rw [printReport_of_decode lib payload w report err hdec,
    printReport_of_decode lib payload _ report err hdec]
  cases report.Location with
  | none => cases err <;> simp [logError, World.emit]
  | some loc =>
    simp only []
    rw [filterReference_eq lib report loc (if err = true then _ else _)]
    rw [filterReference_eq lib report loc
      (if err = true then logError "Error decoding json report"
        { countryCode := w.countryCode, out := [] } else _)]
    cases err <;> simp [logError, World.emit]

theorem stdoutWrites_append (a b : List Event) :
    stdoutWrites (a ++ b) = stdoutWrites a ++ stdoutWrites b := by
  induction a with
  | nil => rfl
  | cons e t ih => cases e <;> simp [stdoutWrites, ih]

theorem rowEvents_all_some {F : Type} (lib : Lib F) (hosts : List (Host F)) :
    rowEvents lib (hosts.map some) = hosts.map (fun h => Event.stdout (formatRow lib h)) := by
  induction hosts with
  | nil => rfl
  | cons h t ih => simp [rowEvents, ih]

theorem rowsStop_all_some {F : Type} (hosts : List (Host F)) :
    rowsStop (hosts.map some) = Stop.returned := by
  induction hosts with
  | nil => rfl
  | cons h t ih => simpa [rowsStop] using ih

theorem rowEvents_nil_entry {F : Type} (lib : Lib F) (pre : List (Host F))
    (rest : List (Option (Host F))) :
    rowEvents lib (pre.map some ++ none :: rest) =
      pre.map (fun h => Event.stdout (formatRow lib h)) := by
  induction pre with
  | nil => rfl
  | cons h t ih => simp [rowEvents, ih]

theorem rowsStop_nil_entry {F : Type} (pre : List (Host F)) (rest : List (Option (Host F))) :
    rowsStop (pre.map some ++ none :: rest) = Stop.nilDeref := by
  induction pre with
  | nil => rfl
  | cons h t ih => simpa [rowsStop] using ih

theorem stdoutWrites_rows {F : Type} (lib : Lib F) (hosts : List (Host F)) :
    stdoutWrites (hosts.map (fun h => Event.stdout (formatRow lib h))) =
      hosts.map (formatRow lib) := by
  induction hosts with
  | nil => rfl
  | cons h t ih => simp [stdoutWrites, ih]

/-- An accepted report goes to the table block. -/
theorem filterReference_accepted {F : Type} (lib : Lib F) (report : Report F)
    (loc : ReportLocation F) (w : World) (hcc : loc.CountryCode ≠ "")
    (hf : w.countryCode = "" ∨ w.countryCode = loc.CountryCode) :
    filterReference lib report loc w = renderTable lib report loc w := by
  unfold filterReference
  rw [if_neg hcc, if_neg]
  rintro ⟨h1, h2⟩
  rcases hf with h | h
  · exact h1 h
  · exact h2 h

/-! ## The claims about printReport -/

/-- C1: for a report that decoded without error and has a location,
`printReport` does what the filter rule of the specification says (warning and
no table for an empty country code; nothing at all for a non-empty filter
different from the country code; the table otherwise), and the table header is
written exactly when the country code is non-empty and the filter is empty or
equal to it. -/
theorem printReport_filter_rule {F : Type} (lib : Lib F) (payload : String) (w : World)
    (report : Report F) (loc : ReportLocation F)
    (hdec : lib.unmarshal payload (Report.zero F) = (report, false))
    (hloc : report.Location = some loc) :
    printReport lib payload w = filterReference lib report loc w ∧
    (loc.CountryCode = "" →
      printReport lib payload w =
        ({ countryCode := w.countryCode,
           out := w.out ++ [Event.logWarn "Discarding report with no country code"] },
         Stop.returned)) ∧
    (loc.CountryCode ≠ "" → w.countryCode ≠ "" → w.countryCode ≠ loc.CountryCode →
      printReport lib payload w = (w, Stop.returned)) ∧
    ((∃ evs, (printReport lib payload w).1.out =
        w.out ++ Event.stdout (headerLine lib loc) :: evs) ↔
      (loc.CountryCode ≠ "" ∧ (w.countryCode = "" ∨ w.countryCode = loc.CountryCode))) := by
  have hrun : printReport lib payload w = filterReference lib report loc w := by
    rw [printReport_of_decode lib payload w report false hdec, hloc]
    rfl
  refine ⟨hrun, ?_, ?_, ?_⟩
  · intro hcc
    rw [hrun]
    simp [filterReference, hcc, World.emit]
  · intro hcc hf hm
    rw [hrun]
    simp [filterReference, hcc, hf, hm]
  · rw [hrun]
    constructor
    · rintro ⟨evs, hev⟩
      by_cases hcc : loc.CountryCode = ""
      · simp [filterReference, hcc, World.emit] at hev
      · refine ⟨hcc, ?_⟩
        by_contra hno
        push_neg at hno
        rw [filterReference, if_neg hcc, if_pos ⟨hno.1, hno.2⟩] at hev
        have h2 : w.out ++ [] = w.out ++ Event.stdout (headerLine lib loc) :: evs := by
          rw [List.append_nil]
          exact hev
        exact absurd (List.append_cancel_left h2) (by simp)
    · rintro ⟨hcc, hf⟩
      rw [filterReference_accepted lib report loc w hcc hf, renderTable_eq]
      exact ⟨_, rfl⟩

/-- C2: when `json.Unmarshal` returns an error, `printReport` logs the error
and then goes on with whatever the report holds: it stops with a nil-pointer
dereference when no location was decoded, and applies the filter rule and the
rendering as for a successful decoding when one was. -/
theorem printReport_decode_error {F : Type} (lib : Lib F) (payload : String) (w : World)
    (report : Report F)
    (hdec : lib.unmarshal payload (Report.zero F) = (report, true)) :
    printReport lib payload w =
      match report.Location with
      | none => (w.emit (Event.logError "Error decoding json report"), Stop.nilDeref)
      | some loc =>
        filterReference lib report loc (w.emit (Event.logError "Error decoding json report")) := by
  rw [printReport_of_decode lib payload w report true hdec]
  rfl

/-- C5: a payload that decodes without error but has no location makes
`printReport` stop with a nil-pointer dereference, without any warning; and a
nil entry in the hosts of an accepted report stops it in the row loop, after
the header lines and the rows of the entries before it. -/
theorem printReport_nil_pointer {F : Type} (lib : Lib F) (payload : String) (w : World)
    (report : Report F)
    (hdec : lib.unmarshal payload (Report.zero F) = (report, false)) :
    (report.Location = none → printReport lib payload w = (w, Stop.nilDeref)) ∧
    (∀ (loc : ReportLocation F) (pre : List (Host F)) (rest : List (Option (Host F))),
      report.Location = some loc → loc.CountryCode ≠ "" →
      (w.countryCode = "" ∨ w.countryCode = loc.CountryCode) →
      report.Hosts = pre.map some ++ none :: rest →
      printReport lib payload w =
        ({ countryCode := w.countryCode,
           out := w.out ++ ([Event.stdout (headerLine lib loc),
                             Event.stdout (separatorLine ++ "\n"),
                             Event.stdout columnHeader] ++
                   pre.map (fun h => Event.stdout (formatRow lib h))) },
         Stop.nilDeref)) := by
  constructor
  · intro hloc
    rw [printReport_of_decode lib payload w report false hdec, hloc]
    rfl
  · intro loc pre rest hloc hcc hf hh
    rw [printReport_of_decode lib payload w report false hdec, hloc]
    show filterReference lib report loc w = _
    rw [filterReference_accepted lib report loc w hcc hf, renderTable_eq, hh,
      rowEvents_nil_entry, rowsStop_nil_entry]
    simp

/-- C3 (amended): for an accepted report whose host entries are all non-nil,
`printReport` makes exactly these writes, in this order: to standard output
the header (styled country name, " - ", IP, newline), the separator of 24
dashes, the column header row and one row per host; then the one closing write
of line 77. Nothing is written before, between or after them. -/
theorem printReport_block {F : Type} (lib : Lib F) (payload : String) (w : World)
    (report : Report F) (loc : ReportLocation F) (hosts : List (Host F))
    (hdec : lib.unmarshal payload (Report.zero F) = (report, false))
    (hloc : report.Location = some loc) (hcc : loc.CountryCode ≠ "")
    (hf : w.countryCode = "" ∨ w.countryCode = loc.CountryCode)
    (hh : report.Hosts = hosts.map some) :
    ∃ closing : Event,
      printReport lib payload w =
        ({ countryCode := w.countryCode,
           out := w.out ++
             ([Event.stdout (lib.color loc.CountryName "white+b" ++ " - " ++ loc.IP ++ "\n"),
               Event.stdout "------------------------\n",
               Event.stdout
                 "Hop  IP                 Sent   Loss %   Last     Avg      Best     Worst    StdDev  \n"]
              ++ hosts.map (fun h => Event.stdout (formatRow lib h)) ++ [closing]) },
         Stop.returned) := by
  refine ⟨Event.stderr "\n", ?_⟩
  rw [printReport_of_decode lib payload w report false hdec, hloc]
  show filterReference lib report loc w = _
  rw [filterReference_accepted lib report loc w hcc hf, renderTable_eq, hh,
    rowEvents_all_some, rowsStop_all_some]
  have h1 : columnHeader =
      "Hop  IP                 Sent   Loss %   Last     Avg      Best     Worst    StdDev  \n" := by
    decide
  have h2 : separatorLine ++ "\n" = "------------------------\n" := by decide
  simp [headerLine, h1, h2]

/-- On an accepted report whose host entries are all non-nil, the
standard-output writes after the three header writes are the formatted hosts,
one row per entry and in the order of the slice, whatever the hop numbers. -/
theorem stdout_rows_of_hosts {F : Type} (lib : Lib F) (payload : String) (w : World)
    (report : Report F) (err : Bool) (loc : ReportLocation F) (hosts : List (Host F))
    (hdec : lib.unmarshal payload (Report.zero F) = (report, err))
    (hloc : report.Location = some loc) (hcc : loc.CountryCode ≠ "")
    (hf : w.countryCode = "" ∨ w.countryCode = loc.CountryCode)
    (hh : report.Hosts = hosts.map some) :
    stdoutWrites (printReport lib payload w).1.out =
        stdoutWrites w.out ++
          ([headerLine lib loc, separatorLine ++ "\n", columnHeader] ++
            hosts.map (formatRow lib)) ∧
    ((stdoutWrites (printReport lib payload w).1.out).drop
        ((stdoutWrites w.out).length + 3)).length = hosts.length ∧
    ∀ (i : Nat) (hi : i < hosts.length),
      (stdoutWrites (printReport lib payload w).1.out)[(stdoutWrites w.out).length + 3 + i]? =
        some (formatRow lib hosts[i]) := by
  have hmain : stdoutWrites (printReport lib payload w).1.out =
      stdoutWrites w.out ++
        ([headerLine lib loc, separatorLine ++ "\n", columnHeader] ++
          hosts.map (formatRow lib)) := by
    rw [printReport_of_decode lib payload w report err hdec, hloc]
    show stdoutWrites (filterReference lib report loc _).1.out = _
    rw [filterReference_accepted lib report loc _ hcc (by cases err <;> exact hf),
      renderTable_eq, hh, rowEvents_all_some, rowsStop_all_some]
    cases err <;>
      simp [stdoutWrites_append, stdoutWrites, stdoutWrites_rows, logError, World.emit]
  refine ⟨hmain, ?_, ?_⟩
  · rw [hmain]
    simp
  · intro i hi
    rw [hmain, List.getElem?_append_right (by omega)]
    have : (stdoutWrites w.out).length + 3 + i - (stdoutWrites w.out).length = 3 + i := by omega
    rw [this]
    have h3 : ([headerLine lib loc, separatorLine ++ "\n", columnHeader] ++
        hosts.map (formatRow lib))[3 + i]? = (hosts.map (formatRow lib))[i]? := by
      rw [List.getElem?_append_right (by simp)]
      simp
    rw [h3]
    simp [hi]

/-- C4: on an accepted report with a nil entry among its hosts, `printReport`
writes the three header writes and the rows of the entries before the nil
entry, in slice order, then stops with a nil-pointer dereference: the entries
after it get no row. -/
theorem printReport_rows_stop_at_nil {F : Type} (lib : Lib F) (payload : String) (w : World)
    (report : Report F) (err : Bool) (loc : ReportLocation F) (pre : List (Host F))
    (rest : List (Option (Host F)))
    (hdec : lib.unmarshal payload (Report.zero F) = (report, err))
    (hloc : report.Location = some loc) (hcc : loc.CountryCode ≠ "")
    (hf : w.countryCode = "" ∨ w.countryCode = loc.CountryCode)
    (hh : report.Hosts = pre.map some ++ none :: rest) :
    stdoutWrites (printReport lib payload w).1.out =
        stdoutWrites w.out ++
          ([headerLine lib loc, separatorLine ++ "\n", columnHeader] ++
            pre.map (formatRow lib)) ∧
    (printReport lib payload w).2 = Stop.nilDeref := by
  rw [printReport_of_decode lib payload w report err hdec, hloc]
  show stdoutWrites (filterReference lib report loc _).1.out = _ ∧
    (filterReference lib report loc _).2 = _
  rw [filterReference_accepted lib report loc _ hcc (by cases err <;> exact hf),
    renderTable_eq, hh, rowEvents_nil_entry, rowsStop_nil_entry]
  cases err <;>
    simp [stdoutWrites_append, stdoutWrites, stdoutWrites_rows, logError, World.emit]

/-- C7: running `printReport` a second time on the same payload, in the world
the first run left, writes the same events again and stops the same way, and
neither run changes the filter variable. -/
theorem printReport_deterministic {F : Type} (lib : Lib F) (payload : String) (w : World) :
    (printReport lib payload w).1.countryCode = w.countryCode ∧
    (printReport lib payload (printReport lib payload w).1).1.countryCode = w.countryCode ∧
    (printReport lib payload (printReport lib payload w).1).2 = (printReport lib payload w).2 ∧
    ∃ evs : List Event,
      (printReport lib payload w).1.out = w.out ++ evs ∧
      (printReport lib payload (printReport lib payload w).1).1.out =
        (printReport lib payload w).1.out ++ evs := by
  have h1 := printReport_eq lib payload w
  have h2 := printReport_eq lib payload (printReport lib payload w).1
  have hc : (printReport lib payload w).1.countryCode = w.countryCode := by rw [h1]
  rw [hc] at h2
  refine ⟨hc, ?_, ?_, handlerWrites lib w.countryCode payload, ?_, ?_⟩
  · rw [h2]
  · rw [h2]; rw [h1]
  · rw [h1]
  · rw [h2]

/-! ## The claims on the sample payloads -/

/-- The decoded example report. -/
theorem sample_decode_example :
    sampleLib.unmarshal payloadExample (Report.zero Int) =
      ({ Time := 0, Hosts := [some exampleHost], Hops := 0, ElapsedTime := 0,
         Location := some usLocation }, false) := by
  rfl

theorem sample_decode_nullHost :
    sampleLib.unmarshal payloadNullHost (Report.zero Int) =
      ({ Time := 0, Hosts := [none], Hops := 0, ElapsedTime := 0,
         Location := some usLocation }, false) := by
  decide

theorem sample_decode_emptyObject :
    sampleLib.unmarshal payloadEmptyObject (Report.zero Int) = (Report.zero Int, false) := by
  decide

theorem sample_decode_notJson :
    sampleLib.unmarshal payloadNotJson (Report.zero Int) = (Report.zero Int, true) := by
  decide

theorem sample_decode_badHops :
    sampleLib.unmarshal payloadBadHops (Report.zero Int) =
      ({ Time := 0, Hosts := [], Hops := 0, ElapsedTime := 0,
         Location := some usLocation }, true) := by
  decide

/-- C1 at the example payload with the filter "FR": nothing is written. -/
theorem printReport_filter_rule_witness :
    printReport sampleLib payloadExample { countryCode := "FR", out := [] } =
      ({ countryCode := "FR", out := [] }, Stop.returned) :=
  (printReport_filter_rule sampleLib payloadExample { countryCode := "FR", out := [] }
    _ usLocation sample_decode_example rfl).2.2.1 (by decide) (by decide) (by decide)

/-- C2 at a payload that is not JSON (the error is logged and the handler
stops with a nil-pointer dereference) and at a payload with a member of the
wrong type (the error is logged and the table is written all the same). -/
theorem printReport_decode_error_witness :
    printReport sampleLib payloadNotJson { countryCode := "", out := [] } =
      ({ countryCode := "", out := [Event.logError "Error decoding json report"] },
       Stop.nilDeref) ∧
    printReport sampleLib payloadBadHops { countryCode := "", out := [] } =
      ({ countryCode := "",
         out := [Event.logError "Error decoding json report",
                 Event.stdout "\x1b[1;37mUnited States\x1b[0m - 1.2.3.4\n",
                 Event.stdout "------------------------\n",
                 Event.stdout columnHeader,
                 Event.stderr "\n"] },
       Stop.returned) :=
  ⟨printReport_decode_error sampleLib payloadNotJson { countryCode := "", out := [] }
    (Report.zero Int) sample_decode_notJson,
   printReport_decode_error sampleLib payloadBadHops { countryCode := "", out := [] }
    _ sample_decode_badHops⟩

/-- C5 at the empty object and at a hosts list holding null. -/
theorem printReport_nil_pointer_witness :
    printReport sampleLib payloadEmptyObject { countryCode := "", out := [] } =
      ({ countryCode := "", out := [] }, Stop.nilDeref) ∧
    printReport sampleLib payloadNullHost { countryCode := "", out := [] } =
      ({ countryCode := "",
         out := [Event.stdout "\x1b[1;37mUnited States\x1b[0m - 1.2.3.4\n",
                 Event.stdout "------------------------\n",
                 Event.stdout columnHeader] },
       Stop.nilDeref) :=
  ⟨(printReport_nil_pointer sampleLib payloadEmptyObject { countryCode := "", out := [] }
      (Report.zero Int) sample_decode_emptyObject).1 rfl,
   (printReport_nil_pointer sampleLib payloadNullHost { countryCode := "", out := [] }
      _ sample_decode_nullHost).2 usLocation [] [] rfl (by decide) (Or.inl rfl) rfl⟩

/-- C3 as stated fails at the example payload: the second line on standard
output is the separator, the last one is the host row, and the writes differ
from the claimed block. -/
theorem stdout_block_differs_from_claim :
    stdoutWrites (printReport sampleLib payloadExample { countryCode := "", out := [] }).1.out =
      ["\x1b[1;37mUnited States\x1b[0m - 1.2.3.4\n",
       "------------------------\n",
       "Hop  IP                 Sent   Loss %   Last     Avg      Best     Worst    StdDev  \n",
       "1    10.0.0.1           5      0.0      1.2      1.1      0.9      1.5      0.2     \n"] ∧
    stdoutWrites (printReport sampleLib payloadExample { countryCode := "", out := [] }).1.out ≠
      claimedBlock usLocation [formatRow sampleLib exampleHost] := by
  constructor
  · rfl
  · decide

/-- C3 (amended) at the example payload. -/
theorem printReport_block_witness :
    ∃ closing : Event,
      printReport sampleLib payloadExample { countryCode := "", out := [] } =
        ({ countryCode := "",
           out := [Event.stdout "\x1b[1;37mUnited States\x1b[0m - 1.2.3.4\n",
                   Event.stdout "------------------------\n",
                   Event.stdout
                     "Hop  IP                 Sent   Loss %   Last     Avg      Best     Worst    StdDev  \n",
                   Event.stdout
                     "1    10.0.0.1           5      0.0      1.2      1.1      0.9      1.5      0.2     \n",
                   closing] },
         Stop.returned) :=
  printReport_block sampleLib payloadExample { countryCode := "", out := [] } _ usLocation
    [exampleHost] sample_decode_example rfl (by decide) (Or.inl rfl) rfl

theorem sample_decode_nullAmongHosts :
    sampleLib.unmarshal payloadNullAmongHosts (Report.zero Int) =
      ({ Time := 0,
         Hosts := [some (bareHost "10.0.0.7" 7 5), some (bareHost "10.0.0.2" 2 4), none,
                   some (bareHost "10.0.0.9" 9 3)],
         Hops := 0, ElapsedTime := 0, Location := some usLocation }, false) := by
  decide

/-- C4 at the payload with hosts hop 7, hop 2, null, hop 9: the rows of hop 7
and hop 2 are written in that order, the handler stops at the null and hop 9
gets no row. -/
theorem printReport_rows_stop_at_nil_witness :
    stdoutWrites
        (printReport sampleLib payloadNullAmongHosts { countryCode := "", out := [] }).1.out =
      ["\x1b[1;37mUnited States\x1b[0m - 1.2.3.4\n",
       "------------------------\n",
       "Hop  IP                 Sent   Loss %   Last     Avg      Best     Worst    StdDev  \n",
       "7    10.0.0.7           5      0.0      0.0      0.0      0.0      0.0      0.0     \n",
       "2    10.0.0.2           4      0.0      0.0      0.0      0.0      0.0      0.0     \n"] ∧
    (printReport sampleLib payloadNullAmongHosts { countryCode := "", out := [] }).2 =
      Stop.nilDeref :=
  printReport_rows_stop_at_nil sampleLib payloadNullAmongHosts { countryCode := "", out := [] }
    _ false usLocation [bareHost "10.0.0.7" 7 5, bareHost "10.0.0.2" 2 4]
    [some (bareHost "10.0.0.9" 9 3)] sample_decode_nullAmongHosts rfl (by decide) (Or.inl rfl) rfl

/-- The handler on the payload with a null location: no error, no warning, a
nil-pointer dereference. -/
theorem sample_null_location :
    printReport sampleLib payloadNullLocation { countryCode := "", out := [] } =
      ({ countryCode := "", out := [] }, Stop.nilDeref) := by
  decide

/-- Two hosts with decreasing hop numbers are written in the order received. -/
theorem sample_rows_unsorted :
    printRows sampleLib [some (bareHost "10.0.0.7" 7 5), some (bareHost "10.0.0.2" 2 4)]
        { countryCode := "", out := [] } =
      ({ countryCode := "",
         out := [Event.stdout
                   "7    10.0.0.7           5      0.0      0.0      0.0      0.0      0.0      0.0     \n",
                 Event.stdout
                   "2    10.0.0.2           4      0.0      0.0      0.0      0.0      0.0      0.0     \n"] },
       Stop.returned) := by
  decide

/-! ## parseBrokerUrls -/

theorem splitChars_ne_nil (sep : Char) (l : List Char) : splitChars sep l ≠ [] := by
  cases l with
  | nil => simp [splitChars]
  | cons c cs =>
    simp only [splitChars]
    split_ifs
    · simp
    · cases splitChars sep cs <;> simp

theorem splitChars_length (sep : Char) (l : List Char) :
    (splitChars sep l).length = l.count sep + 1 := by
  induction l with
  | nil => simp [splitChars]
  | cons c cs ih =>
    simp only [splitChars]
    by_cases h : c = sep
    · subst h
      simp [ih]
    · rw [if_neg h]
      have hne := splitChars_ne_nil sep cs
      cases hs : splitChars sep cs with
      | nil => exact absurd hs hne
      | cons p ps =>
        rw [hs] at ih
        simp only [List.length_cons] at ih ⊢
        rw [List.count_cons_of_ne (fun h2 => h h2.symm)]
        exact ih

theorem splitChars_no_sep (sep : Char) (l : List Char) :
    ∀ p ∈ splitChars sep l, sep ∉ p := by
  induction l with
  | nil => simp [splitChars]
  | cons c cs ih =>
    simp only [splitChars]
    by_cases h : c = sep
    · rw [if_pos h]
      intro p hp
      rcases List.mem_cons.1 hp with rfl | hp
      · simp
      · exact ih p hp
    · rw [if_neg h]
      cases hs : splitChars sep cs with
      | nil => 
        intro p hp
        simp at hp
        subst hp
        simp [Ne.symm h]
      | cons q qs =>
        rw [hs] at ih
        intro p hp
        rcases List.mem_cons.1 hp with rfl | hp
        · have := ih q (List.mem_cons_self _ _)
          simp [Ne.symm h, this]
        · exact ih p (List.mem_cons_of_mem _ hp)

theorem splitChars_intercalate (sep : Char) (l : List Char) :
    List.intercalate [sep] (splitChars sep l) = l := by
  induction l with
  | nil => simp [splitChars, List.intercalate]
  | cons c cs ih =>
    simp only [splitChars]
    have hne := splitChars_ne_nil sep cs
    cases hs : splitChars sep cs with
    | nil => exact absurd hs hne
    | cons p ps =>
      rw [hs] at ih
      by_cases h : c = sep
      · rw [if_pos h]
        subst h
        simp [List.intercalate] at ih ⊢
        exact ih
      · rw [if_neg h]
        cases ps with
        | nil => simp [List.intercalate] at ih ⊢; exact ih
        | cons q qs => simp [List.intercalate] at ih ⊢; exact ih

theorem trimSpaceChars_decompose (l : List Char) :
    ∃ pre suf, l = pre ++ trimSpaceChars l ++ suf ∧
      (∀ c ∈ pre, isSpace c = true) ∧ (∀ c ∈ suf, isSpace c = true) := by
  refine ⟨l.takeWhile isSpace, ((l.dropWhile isSpace).reverse.takeWhile isSpace).reverse, ?_, ?_, ?_⟩
  · unfold trimSpaceChars
    rw [List.append_assoc, ← List.reverse_append, List.takeWhile_append_dropWhile,
      List.reverse_reverse, List.takeWhile_append_dropWhile]
  · intro c hc
    exact List.mem_takeWhile_imp hc
  · intro c hc
    exact List.mem_takeWhile_imp (List.mem_reverse.1 hc)

theorem trimSpaceChars_last (l : List Char) (c : Char)
    (h : (trimSpaceChars l).getLast? = some c) : isSpace c = false := by
  unfold trimSpaceChars at h
  rw [List.getLast?_reverse] at h
  have := List.head?_dropWhile_not isSpace (l.dropWhile isSpace).reverse
  rw [h] at this
  exact this

theorem trimSpaceChars_head (l : List Char) (c : Char)
    (h : (trimSpaceChars l).head? = some c) : isSpace c = false := by
  have hd : l.dropWhile isSpace =
      trimSpaceChars l ++ ((l.dropWhile isSpace).reverse.takeWhile isSpace).reverse := by
    unfold trimSpaceChars
    rw [← List.reverse_append, List.takeWhile_append_dropWhile, List.reverse_reverse]
  have h2 : (l.dropWhile isSpace).head? = some c := by
    rw [hd]
    cases ht : trimSpaceChars l with
    | nil => rw [ht] at h; simp at h
    | cons x xs => rw [ht] at h; simpa using h
  have := List.head?_dropWhile_not isSpace l
  rw [h2] at this
  exact this

theorem trimSpaceChars_mem (l : List Char) (c : Char) (h : c ∈ trimSpaceChars l) : c ∈ l := by
  obtain ⟨pre, suf, hl, -, -⟩ := trimSpaceChars_decompose l
  rw [hl]
  simp [h]

/-- C6: `parseBrokerUrls s` is never empty, has one element more than `s` has
commas, and its elements are, in order, the comma-separated pieces of `s`
(pieces without comma whose joining with commas gives `s` back) each with a
run of white space removed at both ends; no element contains a comma, starts
with white space or ends with white space. -/
theorem parseBrokerUrls_spec (s : String) :
    parseBrokerUrls s ≠ [] ∧
    (parseBrokerUrls s).length = s.data.count ',' + 1 ∧
    (∃ pieces : List (List Char),
      s.data = List.intercalate [','] pieces ∧
      (∀ p ∈ pieces, ',' ∉ p) ∧
      List.Forall₂
        (fun (p : List Char) (t : String) =>
          ∃ pre suf, p = pre ++ t.data ++ suf ∧
            (∀ c ∈ pre, isSpace c = true) ∧ (∀ c ∈ suf, isSpace c = true))
        pieces (parseBrokerUrls s)) ∧
    (∀ t ∈ parseBrokerUrls s,
      ',' ∉ t.data ∧
      (∀ c, t.data.head? = some c → isSpace c = false) ∧
      (∀ c, t.data.getLast? = some c → isSpace c = false)) := by
  have hdef : parseBrokerUrls s =
      (splitChars ',' s.data).map (fun p => String.mk (trimSpaceChars p)) := by
    simp [parseBrokerUrls, stringsSplit, stringsTrimSpace, List.map_map, Function.comp_def]
  refine ⟨?_, ?_, ⟨splitChars ',' s.data, ?_, ?_, ?_⟩, ?_⟩
  · rw [hdef]
    simpa using splitChars_ne_nil ',' s.data
  · rw [hdef, List.length_map, splitChars_length]
  · exact (splitChars_intercalate ',' s.data).symm
  · exact splitChars_no_sep ',' s.data
  · rw [hdef, List.forall₂_map_right_iff, List.forall₂_same]
    intro p _
    exact trimSpaceChars_decompose p
  · intro t ht
    rw [hdef] at ht
    obtain ⟨p, hp, rfl⟩ := List.mem_map.1 ht
    refine ⟨?_, ?_, ?_⟩
    · intro hc
      exact splitChars_no_sep ',' s.data p hp (trimSpaceChars_mem p ',' hc)
    · intro c hc
      exact trimSpaceChars_head p c hc
    · intro c hc
      exact trimSpaceChars_last p c hc

/-- The broker list of the sample flags. -/
theorem parseBrokerUrls_sample :
    parseBrokerUrls " tcp://a:1883 , ssl://b:8883" = ["tcp://a:1883", "ssl://b:8883"] ∧
    parseBrokerUrls "" = [""] := by
  constructor <;> decide

/-! ## main: the subscription loop -/

/-- The loop appends one call per target, in order, and pushes one deferred
disconnect per call. -/
theorem subscribeLoop_eq (clientID topic cafile : String) (insecure : Bool)
    (urls : List String) (s : MainState) :
    subscribeLoop clientID topic cafile insecure urls s =
      { countryCode := s.countryCode,
        calls := s.calls ++ urls.map (callFor clientID topic cafile insecure),
        deferred := (List.range' s.calls.length urls.length).reverse ++ s.deferred,
        disconnected := s.disconnected } := by
  induction urls generalizing s with
  | nil => simp [subscribeLoop]
  | cons u t ih =>
    simp only [subscribeLoop, ih]
    simp [callFor, List.range'_succ]

/-- The state after a start-up that went through. -/
theorem mainStartup_ok (fl : Flags) (os : Os) (s : MainState)
    (h : mainStartup fl os = Startup.ok s) :
    ∃ clientID, (if fl.clientID = "" then os.hostname else some fl.clientID) = some clientID ∧
      s = { countryCode := fl.countryCode,
            calls := (parseBrokerUrls fl.brokerUrls).map
              (callFor clientID fl.topic fl.cafile fl.insecure),
            deferred := (List.range' 0 (parseBrokerUrls fl.brokerUrls).length).reverse,
            disconnected := [] } := by
  unfold mainStartup at h
  split_ifs at h with h1 h2
  · split at h
    · cases h
    · rename_i clientID hid
      refine ⟨clientID, by simpa [h2] using hid, ?_⟩
      injection h with h
      rw [← h, subscribeLoop_eq]
      simp
  · split at h
    · cases h
    · rename_i clientID hid
      refine ⟨clientID, by simpa [h2] using hid, ?_⟩
      injection h with h
      rw [← h, subscribeLoop_eq]
      simp

/-- C10: when start-up goes through, the `Subscribe` calls made are exactly
one per parsed target, in list order, the i-th with a `BrokerURLs` list holding
only the i-th target; all carry the handler `printReport` and the same client
identifier, topic, CA path and skip-verification flag; without a client
identifier flag, that identifier is the host name for every call. -/
theorem main_subscribe_calls (fl : Flags) (os : Os) (s : MainState)
    (h : mainStartup fl os = Startup.ok s) :
    ∃ clientID : String,
      s.calls = (parseBrokerUrls fl.brokerUrls).map (fun urlStr =>
        { handler := HandlerFn.printReport,
          args := { BrokerURLs := [urlStr], ClientID := clientID, Topic := fl.topic,
                    TLSCACertPath := fl.cafile, TLSSkipVerify := fl.insecure } }) ∧
      s.calls.length = (parseBrokerUrls fl.brokerUrls).length ∧
      (∀ (i : Nat) (c : SubscribeCall), s.calls[i]? = some c →
        (parseBrokerUrls fl.brokerUrls)[i]? = some (c.args.BrokerURLs.headD "") ∧
        c.args.BrokerURLs.length = 1) ∧
      (fl.clientID = "" → os.hostname = some clientID) ∧
      (fl.clientID ≠ "" → clientID = fl.clientID) := by
  obtain ⟨clientID, hid, hs⟩ := mainStartup_ok fl os s h
  refine ⟨clientID, ?_, ?_, ?_, ?_, ?_⟩
  · rw [hs]
    rfl
  · rw [hs]
    simp
  · intro i c hc
    rw [hs] at hc
    simp only [List.getElem?_map] at hc
    cases hu : (parseBrokerUrls fl.brokerUrls)[i]? with
    | none => rw [hu] at hc; cases hc
    | some u =>
      rw [hu] at hc
      simp at hc
      subst hc
      simp [callFor]
  · intro he
    simpa [he] using hid
  · intro hne
    simpa [hne] using hid.symm

/-- C10 at the sample flags: two calls, both with the host name as client
identifier. -/
theorem main_subscribe_calls_witness :
    ∃ clientID : String,
      (subscribeLoop "probe1" "/metrics/mtr" "" false ["tcp://a:1883", "ssl://b:8883"]
        { countryCode := "", calls := [], deferred := [], disconnected := [] }).calls =
        (parseBrokerUrls sampleFlags.brokerUrls).map (fun urlStr =>
          { handler := HandlerFn.printReport,
            args := { BrokerURLs := [urlStr], ClientID := clientID, Topic := "/metrics/mtr",
                      TLSCACertPath := "", TLSSkipVerify := false } }) ∧
      clientID = "probe1" := by
  obtain ⟨clientID, h1, _, _, h4, _⟩ := main_subscribe_calls sampleFlags sampleOs
    (subscribeLoop "probe1" "/metrics/mtr" "" false ["tcp://a:1883", "ssl://b:8883"]
      { countryCode := "", calls := [], deferred := [], disconnected := [] }) (by decide)
  refine ⟨clientID, h1, ?_⟩
  have := h4 rfl
  exact (Option.some.inj this).symm

/-! ## main: the wait at the end -/

/-- A main goroutine at a send on a nil channel does not move. -/
theorem run_blocked (s : MainState) (k : Nat) : run k (afterStartup s) = afterStartup s := by
  cases k with
  | zero => rfl
  | succ k => rfl

/-- When the function returns, the deferred disconnects all run, last
registered first, and the process exits with status 0. -/
theorem run_unwinding (st : MainState) (loop : Option Chan) :
    run (st.deferred.length + 1) { st := st, loop := loop, phase := Phase.unwinding } =
      { st := { st with deferred := [], disconnected := st.disconnected ++ st.deferred },
        loop := loop, phase := Phase.exited 0 } := by
  obtain ⟨cc, calls, deferred, disconnected⟩ := st
  induction deferred generalizing disconnected with
  | nil => simp [run, step]
  | cons c rest ih =>
    refine Eq.trans (b := run (rest.length + 1)
      { st := { countryCode := cc, calls := calls, deferred := rest,
                disconnected := disconnected ++ [c] },
        loop := loop, phase := Phase.unwinding }) rfl ?_
    exact (ih (disconnected ++ [c])).trans (by simp)

/-- C9 (amended): after a start-up that went through, the main goroutine
stays at the send on the nil channel whatever the number of steps: one
disconnect is registered per target, none is invoked by the main goroutine,
and `main` does not return or reach the exit with status 0. -/
theorem main_blocks_forever (fl : Flags) (os : Os) (s : MainState)
    (h : mainStartup fl os = Startup.ok s) (k : Nat) :
    s.deferred.length = (parseBrokerUrls fl.brokerUrls).length ∧
    (run k (afterStartup s)).phase = Phase.sending ∧
    (run k (afterStartup s)).st.deferred = s.deferred ∧
    (run k (afterStartup s)).st.disconnected = [] := by
  obtain ⟨clientID, -, hs⟩ := mainStartup_ok fl os s h
  rw [run_blocked]
  refine ⟨?_, rfl, rfl, ?_⟩
  · rw [hs]
    simp
  · rw [hs]
    rfl

/-- C9 (amended) at the sample flags, after a thousand steps. -/
theorem main_blocks_forever_witness :
    (run 1000 (afterStartup
      (subscribeLoop "probe1" "/metrics/mtr" "" false ["tcp://a:1883", "ssl://b:8883"]
        { countryCode := "", calls := [], deferred := [], disconnected := [] }))).phase =
      Phase.sending :=
  (main_blocks_forever sampleFlags sampleOs _ (by decide) 1000).2.1

/-- C9 as stated fails at the sample flags: start-up registers two
disconnects, and no number of steps brings the main goroutine to the exit with
status 0 or to invoke a disconnect. -/
theorem main_shutdown_counterexample :
    ∃ s : MainState, mainStartup sampleFlags sampleOs = Startup.ok s ∧
      s.deferred = [1, 0] ∧
      ¬ ∃ k : Nat, (run k (afterStartup s)).phase = Phase.exited 0 ∨
        (run k (afterStartup s)).st.disconnected ≠ [] := by
  refine ⟨subscribeLoop "probe1" "/metrics/mtr" "" false ["tcp://a:1883", "ssl://b:8883"]
    { countryCode := "", calls := [], deferred := [], disconnected := [] }, by decide,
    by decide, ?_⟩
  rintro ⟨k, hk⟩
  rw [run_blocked] at hk
  rcases hk with hk | hk
  · cases hk
  · exact hk rfl

/-! ## Concurrent deliveries -/

theorem writesOf_append (i : Nat) (a b : List (Nat × Event)) :
    writesOf i (a ++ b) = writesOf i a ++ writesOf i b := by
  simp [writesOf]

/-- A step keeps, for every goroutine, what it has written followed by what
it has still to write. -/
theorem stepAt_keeps (j i : Nat) (s : Shared) :
    writesOf i (s.stepAt j).out ++ ((s.stepAt j).pending[i]?).getD [] =
      writesOf i s.out ++ (s.pending[i]?).getD [] := by
  unfold Shared.stepAt
  cases hj : s.pending[j]? with
  | none => rfl
  | some l =>
    cases l with
    | nil => rfl
    | cons e rest =>
      simp only
      by_cases hij : j = i
      · subst hij
        have hlt : j < s.pending.length := by
          rcases Nat.lt_or_ge j s.pending.length with h | h
          · exact h
          · rw [List.getElem?_eq_none h] at hj
            cases hj
        rw [writesOf_append, List.getElem?_set_self hlt, hj]
        simp [writesOf]
      · rw [writesOf_append, List.getElem?_set_ne hij]
        have : writesOf i [(j, e)] = [] := by
          simp [writesOf, hij]
        rw [this, List.append_nil]

theorem runSchedule_keeps (sched : List Nat) (i : Nat) (s : Shared) :
    writesOf i (runSchedule sched s).out ++ ((runSchedule sched s).pending[i]?).getD [] =
      writesOf i s.out ++ (s.pending[i]?).getD [] := by
  induction sched generalizing s with
  | nil => rfl
  | cons j rest ih =>
    simp only [runSchedule]
    rw [ih, stepAt_keeps]

/-- C8 (amended): whatever the order in which the scheduler lets the
concurrent handlers write, each handler's writes appear in the shared output
in their own order, none lost and none repeated: at any moment the writes
already made by goroutine `i` followed by its pending ones are the writes of
`printReport` on the i-th payload, so once nothing is pending the output holds
each report's complete sequence of lines. Writes of different goroutines may
alternate: the handler takes no lock. -/
theorem concurrent_writes_keep_order {F : Type} (lib : Lib F) (countryCode : String)
    (payloads : List String) (sched : List Nat) (i : Nat) :
    writesOf i (runSchedule sched (Shared.start lib countryCode payloads)).out ++
        ((runSchedule sched (Shared.start lib countryCode payloads)).pending[i]?).getD [] =
      ((payloads[i]?).map (handlerWrites lib countryCode)).getD [] ∧
    ((runSchedule sched (Shared.start lib countryCode payloads)).pending[i]? = some [] →
      ∃ payload, payloads[i]? = some payload ∧
        writesOf i (runSchedule sched (Shared.start lib countryCode payloads)).out =
          (printReport lib payload { countryCode := countryCode, out := [] }).1.out) := by
  have hk := runSchedule_keeps sched i (Shared.start lib countryCode payloads)
  have h0 : writesOf i (Shared.start lib countryCode payloads).out ++
      ((Shared.start lib countryCode payloads).pending[i]?).getD [] =
      ((payloads[i]?).map (handlerWrites lib countryCode)).getD [] := by
    simp [Shared.start, writesOf, List.getElem?_map]
  rw [h0] at hk
  refine ⟨hk, ?_⟩
  intro hp
  rw [hp] at hk
  cases hpl : payloads[i]? with
  | none =>
    have hlen : (runSchedule sched (Shared.start lib countryCode payloads)).pending.length =
        payloads.length := by
      clear hk h0 hp
      generalize hS : Shared.start lib countryCode payloads = S
      have hS0 : S.pending.length = payloads.length := by
        rw [← hS]
        simp [Shared.start]
      clear hS
      induction sched generalizing S with
      | nil => exact hS0
      | cons j rest ih =>
        simp only [runSchedule]
        apply ih
        unfold Shared.stepAt
        split
        · simpa using hS0
        · exact hS0
    have h1 : i < payloads.length := by
      rw [← hlen]
      rcases Nat.lt_or_ge i
        (runSchedule sched (Shared.start lib countryCode payloads)).pending.length with h | h
      · exact h
      · rw [List.getElem?_eq_none h] at hp
        cases hp
    rw [List.getElem?_eq_none_iff] at hpl
    omega
  | some payload =>
    refine ⟨payload, rfl, ?_⟩
    rw [hpl] at hk
    simpa [handlerWrites] using hk

/-- C8 as stated fails for two deliveries of the example payload: there is a
schedule after which both handlers have finished and the header line of the
second report stands between the header line and the separator line of the
first. -/
theorem concurrent_blocks_counterexample :
    interleavedRun.pending = [[], []] ∧
    (sharedStdout interleavedRun.out).take 3 =
      [(0, "\x1b[1;37mUnited States\x1b[0m - 1.2.3.4\n"),
       (1, "\x1b[1;37mUnited States\x1b[0m - 1.2.3.4\n"),
       (0, "------------------------\n")] ∧
    (sharedStdout interleavedRun.out).map Prod.fst = [0, 1, 0, 0, 0, 1, 1, 1] ∧
    contiguous ((sharedStdout interleavedRun.out).map Prod.fst) = false := by
  refine ⟨?_, ?_, ?_, ?_⟩ <;> rfl

/-- C8 (amended) at the interleaved schedule: both handlers have finished and
the writes of the first one, taken out of the shared output, are its block. -/
theorem concurrent_writes_keep_order_witness :
    ∃ payload, [payloadExample, payloadExample][0]? = some payload ∧
      writesOf 0 interleavedRun.out =
        (printReport sampleLib payload { countryCode := "", out := [] }).1.out :=
  (concurrent_writes_keep_order sampleLib "" [payloadExample, payloadExample]
    [0, 1, 0, 0, 0, 0, 1, 1, 1, 1] 0).2 rfl

end MtrStream
